import Mathlib

/-!
Verification of the repository layer of `protean` (`src/protean/core/repository/base.py`)
against its natural-language specification.

The source file under verification is `base.py`.  Collaborators that the repository
layer consumes through narrow interfaces (the `Pagination` container, `Field.empty_values`,
`Entity.update`, `inflection.underscore`, the schema conversion operations and the backend
query/create/update primitives) are not part of the source tree; they are modelled from
the specification, and each such definition is marked `Modelled from the spec:` in its
doc comment.
-/

namespace Protean

/-- A dynamically-typed field value.  `vNone` plays the role of Python's `None`. -/
inductive Value where
  | vNone : Value
  | vStr : String → Value
  | vNat : Nat → Value
deriving DecidableEq, Repr

/-- Modelled from the spec: the recognized "empty" sentinel values (absent/undefined)
of a field, `Field.empty_values` in the source's collaborator. -/
def Field.empty_values : List Value := [Value.vNone, Value.vStr ""]

/-- A field descriptor, exposing whether the field is the identifier field
(`field_obj.identifier` in the source). -/
structure FieldObj where
  identifier : Bool
deriving DecidableEq, Repr

/-- The entity-type metadata used by the repository layer: the identifier field name
(`entity_cls.meta_.id_field[0]`) and the declared unique fields in declaration order
(`entity.meta_.unique_fields`, a sequence of (field name, field descriptor) pairs). -/
structure EntityMeta where
  id_field : String
  unique_fields : List (String × FieldObj)
deriving DecidableEq, Repr

/-- A backend-native record: a mapping from field names to values. -/
abbrev Record := List (String × Value)

/-- The positive filters of a query: field name / value pairs, in insertion order. -/
abbrev Filters := List (String × Value)

/-- The exclude-set of a query: field name / value pairs, in insertion order. -/
abbrev Excludes := List (String × Value)

/-- The reference in-memory store backing the backend primitives: a list of records. -/
abbrev Store := List Record

/-- First value bound to key `k` in an association list (Python `dict` lookup). -/
def assocGet (l : List (String × Value)) (k : String) : Option Value :=
  match l with
  | [] => none
  | kv :: rest => if kv.1 = k then some kv.2 else assocGet rest k

/-- Bind key `k` to `v`, replacing an existing binding in place (Python `dict` update). -/
def assocSet (l : List (String × Value)) (k : String) (v : Value) : List (String × Value) :=
  match l with
  | [] => [(k, v)]
  | kv :: rest => if kv.1 = k then (k, v) :: rest else kv :: assocSet rest k v

/-- `True` when key `k` is bound in the association list. -/
def has_key (l : List (String × Value)) (k : String) : Bool :=
  l.any (fun kv => decide (kv.1 = k))

/-- Python `dict` assignment `d[k] = v`: replaces the value in place when the key is
already present (keeping its position), otherwise appends the new binding. -/
def dict_insert (l : List (String × Value)) (k : String) (v : Value) :
    List (String × Value) :=
  if has_key l k then l.map (fun kv => if kv.1 = k then (k, v) else kv)
  else l ++ [(k, v)]

/-- A domain entity instance: its type metadata plus its field-name/value map. -/
structure Entity where
  meta_ : EntityMeta
  attrs : List (String × Value)
deriving DecidableEq, Repr

/-- Python `getattr(entity, field_name, None)`: the entity's value for the field,
or `None` when the attribute is absent. -/
def getattr (e : Entity) (name : String) : Value :=
  (assocGet e.attrs name).getD Value.vNone

/-- Modelled from the spec: `Entity.update(data)` applies a partial field map to the
entity, binding each given field to its new value. -/
def Entity.update (e : Entity) (data : List (String × Value)) : Entity :=
  { e with attrs := data.foldl (fun a kv => assocSet a kv.1 kv.2) e.attrs }

/-- The `order_by` argument as the Python code sees it: a string (which is iterable in
Python), a list/tuple of ordering keys, or a non-iterable scalar such as a number. -/
inductive PyOrderBy where
  | pstr : String → PyOrderBy
  | plist : List Value → PyOrderBy
  | pnum : Nat → PyOrderBy
deriving DecidableEq, Repr

/-- Python truthiness of an `order_by` value: empty strings, empty sequences and zero
are falsy. -/
def PyOrderBy.truthy : PyOrderBy → Bool
  | .pstr s => !s.isEmpty
  | .plist l => !l.isEmpty
  | .pnum n => decide (n ≠ 0)

/-- Python `isinstance(x, collections.Iterable)`: strings and sequences are iterable,
numbers are not. -/
def PyOrderBy.isIterable : PyOrderBy → Bool
  | .pstr _ => true
  | .plist _ => true
  | .pnum _ => false

/-- The ordering keys a backend sees when it iterates the `order_by` value it was
handed: iterating a Python string yields its one-character substrings, iterating a
sequence yields its elements.  (A non-iterable value cannot be iterated; the model
returns the empty sequence for it.) -/
def PyOrderBy.iterKeys : PyOrderBy → List Value
  | .pstr s => s.toList.map (fun c => Value.vStr (String.mk [c]))
  | .plist l => l
  | .pnum _ => []

/-- Lines 89-91 of `base.py`: `order_by = self.schema.opts.order_by if not order_by
else order_by` followed by `if not isinstance(order_by, collections.Iterable):
order_by = [order_by]`.  Note that only the non-iterable scalar case is wrapped into a
one-element list: Python strings are iterable, so a string scalar passes through
unchanged. -/
def resolve_order_by (d ob : PyOrderBy) : PyOrderBy :=
  let ob1 := if ob.truthy then ob else d
  match ob1 with
  | .pnum n => .plist [Value.vNat n]
  | x => x

/-- A page of query results (`Pagination`): page number, page size, store-side total
and the records of the current page. -/
structure Pagination (α : Type) where
  page : Nat
  per_page : Nat
  total : Nat
  items : List α
deriving DecidableEq, Repr

/-- Modelled from the spec: `Pagination` truthiness is "non-empty `items`". -/
def Pagination.toBool (p : Pagination α) : Bool := !p.items.isEmpty

/-- Modelled from the spec: `Pagination.first` is the first item, or a well-defined
absent value when the page is empty. -/
def Pagination.first (p : Pagination α) : Option α := p.items.head?

/-- A record matches the positive filters when every filter pair is bound in it. -/
def matches_filters (r : Record) (filters : Filters) : Bool :=
  filters.all (fun kv => decide (assocGet r kv.1 = some kv.2))

/-- A record is ruled out by a non-empty exclude-set when it carries the excluded
combination of field names and values (`_excludes: entities without this combination
of field name and values will be returned`). -/
def excluded_by (r : Record) (excludes : Excludes) : Bool :=
  !excludes.isEmpty && excludes.all (fun kv => decide (assocGet r kv.1 = some kv.2))

/-- Modelled from the spec: the reference backend query primitive
(`_filter_objects`) over the in-memory store.  It returns the records matching the
filters and not ruled out by the excludes, with `total` the store-side match count and
`items` the requested page (`len(items) <= per_page`).  Ordering of equal queries is
the store order; the `order_by` argument does not change which records match. -/
def ref_filter_objects (store : Store) (page per_page : Nat) (_order_by : PyOrderBy)
    (excludes : Excludes) (filters : Filters) : Pagination Record :=
  let matched := store.filter (fun r => matches_filters r filters && !(excluded_by r excludes))
  { page := page, per_page := per_page, total := matched.length,
    items := (matched.drop ((page - 1) * per_page)).take per_page }

/-- The type of the abstract backend query primitive `_filter_objects`:
page, per_page, order_by, excludes, filters to a page of raw records. -/
abbrev FilterPrim := Nat → Nat → PyOrderBy → Excludes → Filters → Pagination Record

/-- The per-entity-type schema data the repository layer reads:
`opts.schema_name`, `opts.order_by` and the entity metadata of `opts.entity_cls`. -/
structure Schema where
  schema_name : String
  order_by : PyOrderBy
  entity_meta : EntityMeta
deriving DecidableEq, Repr

/-- Modelled from the spec: the adapter-supplied `to_entity` conversion, lossless for
all mapped fields; modelled as carrying the record's field map into the entity. -/
def Schema.to_entity (sch : Schema) (r : Record) : Entity :=
  { meta_ := sch.entity_meta, attrs := r }

/-- Modelled from the spec: the adapter-supplied `from_entity` conversion, inverse of
`to_entity` for all mapped fields. -/
def Schema.from_entity (_sch : Schema) (e : Entity) : Record := e.attrs

/-- The error taxonomy of the repository layer.  `validationError` carries the schema
name and the field name the uniqueness violation is keyed by (`field_obj.fail('unique',
schema_name=..., field_name=...)`); `objectNotFoundError` is the NotFound failure of
`get`. -/
inductive RepoError where
  | validationError (schema_name field_name : String)
  | objectNotFoundError
deriving DecidableEq, Repr

/-- Lines 44-66 of `base.py`: `get` builds the single filter
`{id_field: identifier}`, calls `_filter_objects` with its default page, page size,
ordering and excludes, raises `ObjectNotFoundError` when `results.items` is empty and
otherwise converts `results.first` (the head of the items) through the schema. -/
def BaseRepository.get (sch : Schema) (fo : FilterPrim) (identifier : Value) :
    Except RepoError Entity :=
  let results := fo 1 10 (.plist []) [] [(sch.entity_meta.id_field, identifier)]
  match results.items with
  | [] => .error .objectNotFoundError
  | r :: _ => .ok (sch.to_entity r)

/-- Lines 68-103 of `base.py`: `filter` resolves `order_by` (default from the schema
options, non-iterable scalars wrapped), delegates to `_filter_objects`, converts every
returned record to an entity in order, replaces the items of the returned `Pagination`
with the entities and returns it. -/
def BaseRepository.filter (sch : Schema) (fo : FilterPrim) (page per_page : Nat)
    (order_by : PyOrderBy) (_excludes : Excludes) (filters : Filters) :
    Pagination Entity :=
  let ob := resolve_order_by sch.order_by order_by
  let results := fo page per_page ob _excludes filters
  { results with items := results.items.map sch.to_entity }

/-- Lines 105-116 of `base.py`: `exists` delegates to `_filter_objects` with the given
excludes and filters and returns the truthiness of the resulting `Pagination`. -/
def BaseRepository.exists (fo : FilterPrim) (_excludes : Excludes) (filters : Filters) :
    Bool :=
  (fo 1 10 (.plist []) _excludes filters).toBool

/-- One iteration of the loop on lines 162-171 of `base.py`: skip empty lookup
values; on update (`create = false`) move identifier fields into the exclude-set;
otherwise add the field and its value to the filter-set.  `dict` assignment semantics
are preserved. -/
def buf_step (e : Entity) (create : Bool) (acc : Filters × Excludes)
    (fe : String × FieldObj) : Filters × Excludes :=
  let lookup_value := getattr e fe.1
  if lookup_value ∈ Field.empty_values then acc
  else if !create && fe.2.identifier then (acc.1, dict_insert acc.2 fe.1 lookup_value)
  else (dict_insert acc.1 fe.1 lookup_value, acc.2)

/-- Lines 161-171 of `base.py`: build the filter-set and exclude-set from the declared
unique fields, iterated in declaration order. -/
def build_unique_filters (e : Entity) (create : Bool) : Filters × Excludes :=
  e.meta_.unique_fields.foldl (buf_step e create) ([], [])

/-- Lines 174-179 of `base.py`: for each filter field in order, perform a single-field
existence check together with the accumulated exclude-set, and fail on the first field
for which a match exists, keyed by that field name and the schema name. -/
def first_unique_violation (sch : Schema) (fo : FilterPrim) (excludes : Excludes) :
    Filters → Option RepoError
  | [] => none
  | kv :: rest =>
    if BaseRepository.exists fo excludes [kv] then
      some (.validationError sch.schema_name kv.1)
    else first_unique_violation sch fo excludes rest

/-- Lines 158-179 of `base.py`: `validate_unique`.  Returns `none` when the entity
passes, and the raised `ValidationError` otherwise. -/
def BaseRepository.validate_unique (sch : Schema) (fo : FilterPrim) (e : Entity)
    (create : Bool) : Option RepoError :=
  let fe := build_unique_filters e create
  first_unique_violation sch fo fe.2 fe.1

/-- Modelled from the spec: the reference backend create primitive `_create_object`
appends the serialized entity to the store and returns the entity. -/
def ref_create_object (sch : Schema) (store : Store) (e : Entity) : Entity × Store :=
  (e, store ++ [sch.from_entity e])

/-- Modelled from the spec: the reference backend update primitive `_update_object`
replaces the record carrying the entity's identifier with the serialized entity. -/
def ref_update_object (sch : Schema) (store : Store) (e : Entity) : Entity × Store :=
  (e, store.map (fun r =>
    if assocGet r sch.entity_meta.id_field
        = assocGet (sch.from_entity e) sch.entity_meta.id_field
    then sch.from_entity e else r))

/-- Lines 122-133 of `base.py`: `create` builds the entity from the constructor
arguments (entity construction is modelled from the spec as binding the keyword
arguments as the entity's field map), validates uniqueness, and only then invokes the
backend create primitive.  The pair threads the store: a raised error leaves the store
exactly as it was, since the create primitive was never invoked. -/
def BaseRepository.create (sch : Schema) (store : Store)
    (kwargs : List (String × Value)) : Except RepoError Entity × Store :=
  let entity : Entity := { meta_ := sch.entity_meta, attrs := kwargs }
  match BaseRepository.validate_unique sch (ref_filter_objects store) entity true with
  | some err => (.error err, store)
  | none =>
    let es := ref_create_object sch store entity
    (.ok es.1, es.2)

/-- Lines 139-156 of `base.py`: `update` first fetches the entity via `get` (a NotFound
there propagates before anything else runs), applies the partial update, validates
uniqueness in update mode, and only then invokes the backend update primitive.  The
pair threads the store: a raised error leaves the store exactly as it was. -/
def BaseRepository.update (sch : Schema) (store : Store) (identifier : Value)
    (data : List (String × Value)) : Except RepoError Entity × Store :=
  match BaseRepository.get sch (ref_filter_objects store) identifier with
  | .error err => (.error err, store)
  | .ok entity0 =>
    let entity := entity0.update data
    match BaseRepository.validate_unique sch (ref_filter_objects store) entity false with
    | some err => (.error err, store)
    | none =>
      let es := ref_update_object sch store entity
      (.ok es.1, es.2)

/-- Modelled from the spec: `inflection.underscore` normalizes a CamelCase class name
to its underscored (snake_case) form. -/
def underscore (s : String) : String :=
  String.mk (s.toList.foldl
    (fun acc c =>
      if c.isUpper then
        if acc.isEmpty then acc ++ [c.toLower] else acc ++ ['_', c.toLower]
      else acc ++ [c])
    [])

/-- The declared `entity` option of a schema `Meta` block: Python's `issubclass`
test is modelled as a boolean flag on the declared class. -/
structure EntityClsDecl where
  subclass_of_entity : Bool
deriving DecidableEq, Repr

/-- The raw `Meta` options block handed to `RepositorySchemaOpts`: each attribute is
absent (`getattr` default) or present with a value. -/
structure MetaOpts where
  entity : Option EntityClsDecl
  schema_name : Option String
  bind : Option String
  order_by : Option PyOrderBy
deriving DecidableEq, Repr

/-- The configuration error raised by `RepositorySchemaOpts`. -/
inductive ConfigError where
  | configurationError
deriving DecidableEq, Repr

/-- The resolved schema options. -/
structure SchemaOpts where
  entity_cls : EntityClsDecl
  schema_name : String
  bind : String
  order_by : PyOrderBy
deriving DecidableEq, Repr

/-- Lines 186-204 of `base.py`: resolve the schema options.  Raises
`ConfigurationError` when no entity is declared or the declared entity is not a
subclass of `Entity`; defaults `schema_name` to the underscored class name when the
declared one is absent or falsy, `bind` to `"default"`, and `order_by` to the empty
tuple. -/
def RepositorySchemaOpts.make (meta : MetaOpts) (schema_cls_name : String) :
    Except ConfigError SchemaOpts :=
  match meta.entity with
  | none => .error .configurationError
  | some cls =>
    if !cls.subclass_of_entity then .error .configurationError
    else
      let sn :=
        match meta.schema_name with
        | none => underscore schema_cls_name
        | some s => if s.isEmpty then underscore schema_cls_name else s
      .ok { entity_cls := cls, schema_name := sn,
            bind := meta.bind.getD "default",
            order_by := meta.order_by.getD (.plist []) }

/-! ### Helper lemmas -/

theorem take_ten_isEmpty {α : Type} (l : List α) : (l.take 10).isEmpty = l.isEmpty := by
  cases l <;> rfl

theorem has_key_eq_true_iff (l : List (String × Value)) (k : String) :
    has_key l k = true ↔ ∃ kv ∈ l, kv.1 = k := by
  simp [has_key]

theorem has_key_append (l₁ l₂ : List (String × Value)) (k : String) :
    has_key (l₁ ++ l₂) k = (has_key l₁ k || has_key l₂ k) := by
  simp [has_key, List.any_append]

theorem dict_insert_fresh (l : List (String × Value)) (k : String) (v : Value)
    (h : has_key l k = false) : dict_insert l k v = l ++ [(k, v)] := by
  simp [dict_insert, h]

theorem mem_dict_insert_self (l : List (String × Value)) (k : String) (v : Value) :
    (k, v) ∈ dict_insert l k v := by
  unfold dict_insert
  split
  · next h =>
    rcases (has_key_eq_true_iff l k).mp h with ⟨kv, hmem, hk⟩
    refine List.mem_map.mpr ⟨kv, hmem, ?_⟩
    simp [hk]
  · simp

theorem mem_dict_insert_of_mem (l : List (String × Value)) (k : String) (v : Value)
    (kv : String × Value) (hkv : kv ∈ l) (h : kv.1 ≠ k ∨ kv.2 = v) :
    kv ∈ dict_insert l k v := by
  unfold dict_insert
  split
  · refine List.mem_map.mpr ⟨kv, hkv, ?_⟩
    by_cases hk1 : kv.1 = k
    · rcases h with h | h
      · exact absurd hk1 h
      · obtain ⟨a, b⟩ := kv
        simp only at hk1 h
        subst hk1; subst h
        simp
    · simp [hk1]
  · exact List.mem_append_left _ hkv

theorem mem_of_mem_dict_insert (l : List (String × Value)) (k : String) (v : Value)
    (kv : String × Value) (h : kv ∈ dict_insert l k v) : kv ∈ l ∨ kv = (k, v) := by
  unfold dict_insert at h
  split at h
  · rcases List.mem_map.mp h with ⟨a, hmem, heq⟩
    by_cases hk : a.1 = k
    · right; simp only [hk, if_pos] at heq; exact heq.symm
    · left; simp only [hk, if_neg, ite_false] at heq; exact heq ▸ hmem
  · rcases List.mem_append.mp h with h | h
    · exact Or.inl h
    · right; simpa using h

theorem has_key_dict_insert (l : List (String × Value)) (k k' : String) (v : Value) :
    has_key (dict_insert l k v) k' = (has_key l k' || decide (k = k')) := by
  rw [Bool.eq_iff_iff, has_key_eq_true_iff]
  simp only [Bool.or_eq_true, has_key_eq_true_iff, decide_eq_true_eq]
  constructor
  · rintro ⟨kv, hmem, hkv⟩
    rcases mem_of_mem_dict_insert l k v kv hmem with h | h
    · exact Or.inl ⟨kv, h, hkv⟩
    · right; rw [h] at hkv; exact hkv
  · rintro (⟨kv, hmem, hkv⟩ | hkk)
    · by_cases hk : k' = k
      · exact ⟨(k, v), mem_dict_insert_self l k v, hk.symm⟩
      · exact ⟨kv, mem_dict_insert_of_mem l k v kv hmem
          (Or.inl (by rw [hkv]; exact hk)), hkv⟩
    · exact ⟨(k, v), mem_dict_insert_self l k v, hkk⟩

theorem exists_ref (store : Store) (ex : Excludes) (fs : Filters) :
    BaseRepository.exists (ref_filter_objects store) ex fs
      = store.any (fun r => matches_filters r fs && !(excluded_by r ex)) := by
  unfold BaseRepository.exists ref_filter_objects Pagination.toBool
  simp only [Nat.sub_self, Nat.zero_mul, List.drop_zero, take_ten_isEmpty]
  rw [Bool.eq_iff_iff]
  simp [List.isEmpty_iff, List.filter_eq_nil_iff, List.any_eq_true]

theorem exists_ref_single (store : Store) (ex : Excludes) (kv : String × Value) :
    BaseRepository.exists (ref_filter_objects store) ex [kv]
      = store.any (fun r => decide (assocGet r kv.1 = some kv.2) && !(excluded_by r ex)) := by
  rw [exists_ref]
  simp [matches_filters]

theorem first_unique_violation_eq_find (sch : Schema) (fo : FilterPrim) (ex : Excludes) :
    ∀ fs : Filters,
      first_unique_violation sch fo ex fs
        = (fs.find? (fun kv => BaseRepository.exists fo ex [kv])).map
            (fun kv => RepoError.validationError sch.schema_name kv.1)
  | [] => rfl
  | kv :: rest => by
    rw [first_unique_violation, List.find?]
    by_cases h : BaseRepository.exists fo ex [kv] = true
    · simp [h]
    · simp only [Bool.not_eq_true] at h
      simp [h, first_unique_violation_eq_find sch fo ex rest]

/-- The conflict predicate a single unique field's existence check evaluates over the
reference store: some record binds that one field to that value and is not ruled out
by the accumulated exclude-set. -/
def field_conflict (store : Store) (ex : Excludes) (kv : String × Value) : Bool :=
  store.any (fun r => decide (assocGet r kv.1 = some kv.2) && !(excluded_by r ex))

theorem validate_unique_ref (sch : Schema) (store : Store) (e : Entity) (c : Bool) :
    BaseRepository.validate_unique sch (ref_filter_objects store) e c
      = (((build_unique_filters e c).1).find?
            (field_conflict store (build_unique_filters e c).2)).map
          (fun kv => RepoError.validationError sch.schema_name kv.1) := by
  unfold BaseRepository.validate_unique
  rw [first_unique_violation_eq_find]
  have hp : (fun kv => BaseRepository.exists (ref_filter_objects store)
      (build_unique_filters e c).2 [kv])
      = field_conflict store (build_unique_filters e c).2 := by
    funext kv
    rw [exists_ref_single]
    rfl
  rw [hp]

theorem buf_filters_sound (e : Entity) (c : Bool) (l : List (String × FieldObj)) :
    ∀ (acc : Filters × Excludes) (kv : String × Value),
      kv ∈ (l.foldl (buf_step e c) acc).1 →
      kv ∈ acc.1 ∨ ∃ d, (kv.1, d) ∈ l ∧ kv.2 = getattr e kv.1 ∧
        getattr e kv.1 ∉ Field.empty_values ∧ (c = true ∨ d.identifier = false) := by
  induction l with
  | nil => intro acc kv h; exact Or.inl h
  | cons fe tl ih =>
    intro acc kv h
    rw [List.foldl_cons] at h
    rcases ih (buf_step e c acc fe) kv h with h1 | ⟨d, hd, h2, h3, h4⟩
    · simp only [buf_step] at h1
      split at h1
      · exact Or.inl h1
      · next hc1 =>
        split at h1
        · exact Or.inl h1
        · next hc2 =>
          rcases mem_of_mem_dict_insert _ _ _ kv h1 with h5 | h5
          · exact Or.inl h5
          · subst h5
            refine Or.inr ⟨fe.2, List.mem_cons_self _ _, rfl, hc1, ?_⟩
            cases hc : c
            · right
              cases hid : fe.2.identifier
              · rfl
              · exact absurd (by rw [hc, hid]; rfl) hc2
            · exact Or.inl rfl
    · exact Or.inr ⟨d, List.mem_cons_of_mem _ hd, h2, h3, h4⟩

theorem buf_excludes_sound (e : Entity) (c : Bool) (l : List (String × FieldObj)) :
    ∀ (acc : Filters × Excludes) (kv : String × Value),
      kv ∈ (l.foldl (buf_step e c) acc).2 →
      kv ∈ acc.2 ∨ ∃ d, (kv.1, d) ∈ l ∧ kv.2 = getattr e kv.1 ∧
        getattr e kv.1 ∉ Field.empty_values ∧ c = false ∧ d.identifier = true := by
  induction l with
  | nil => intro acc kv h; exact Or.inl h
  | cons fe tl ih =>
    intro acc kv h
    rw [List.foldl_cons] at h
    rcases ih (buf_step e c acc fe) kv h with h1 | ⟨d, hd, h2, h3, h4, h5⟩
    · simp only [buf_step] at h1
      split at h1
      · exact Or.inl h1
      · next hc1 =>
        split at h1
        · next hc2 =>
          rcases mem_of_mem_dict_insert _ _ _ kv h1 with h5 | h5
          · exact Or.inl h5
          · subst h5
            rw [Bool.and_eq_true, Bool.not_eq_true'] at hc2
            exact Or.inr ⟨fe.2, List.mem_cons_self _ _, rfl, hc1, hc2.1, hc2.2⟩
        · exact Or.inl h1
    · exact Or.inr ⟨d, List.mem_cons_of_mem _ hd, h2, h3, h4, h5⟩

theorem buf_filters_preserve (e : Entity) (c : Bool) (k : String)
    (l : List (String × FieldObj)) :
    ∀ acc : Filters × Excludes, (k, getattr e k) ∈ acc.1 →
      (k, getattr e k) ∈ (l.foldl (buf_step e c) acc).1 := by
  induction l with
  | nil => intro acc hacc; exact hacc
  | cons fe tl ih =>
    intro acc hacc
    rw [List.foldl_cons]
    apply ih
    simp only [buf_step]
    split
    · exact hacc
    · split
      · exact hacc
      · apply mem_dict_insert_of_mem _ _ _ _ hacc
        by_cases hk : k = fe.1
        · exact Or.inr (by rw [hk])
        · exact Or.inl hk

theorem buf_excludes_preserve (e : Entity) (c : Bool) (k : String)
    (l : List (String × FieldObj)) :
    ∀ acc : Filters × Excludes, (k, getattr e k) ∈ acc.2 →
      (k, getattr e k) ∈ (l.foldl (buf_step e c) acc).2 := by
  induction l with
  | nil => intro acc hacc; exact hacc
  | cons fe tl ih =>
    intro acc hacc
    rw [List.foldl_cons]
    apply ih
    simp only [buf_step]
    split
    · exact hacc
    · split
      · apply mem_dict_insert_of_mem _ _ _ _ hacc
        by_cases hk : k = fe.1
        · exact Or.inr (by rw [hk])
        · exact Or.inl hk
      · exact hacc

theorem buf_filters_complete (e : Entity) (c : Bool) (l : List (String × FieldObj)) :
    ∀ (acc : Filters × Excludes) (k : String) (d : FieldObj), (k, d) ∈ l →
      getattr e k ∉ Field.empty_values → (c = true ∨ d.identifier = false) →
      (k, getattr e k) ∈ (l.foldl (buf_step e c) acc).1 := by
  induction l with
  | nil => intro acc k d hmem; exact absurd hmem (List.not_mem_nil _)
  | cons fe tl ih =>
    intro acc k d hmem hne hcond
    rcases List.mem_cons.mp hmem with heq | htl
    · rw [List.foldl_cons]
      apply buf_filters_preserve
      simp only [buf_step, ← heq]
      rw [if_neg hne]
      have hcond2 : (!c && d.identifier) = false := by
        rcases hcond with h | h <;> simp [h]
      simp only [hcond2, Bool.false_eq_true, if_false]
      exact mem_dict_insert_self _ _ _
    · rw [List.foldl_cons]
      exact ih (buf_step e c acc fe) k d htl hne hcond

theorem buf_excludes_complete (e : Entity) (l : List (String × FieldObj)) :
    ∀ (acc : Filters × Excludes) (k : String) (d : FieldObj), (k, d) ∈ l →
      getattr e k ∉ Field.empty_values → d.identifier = true →
      (k, getattr e k) ∈ (l.foldl (buf_step e false) acc).2 := by
  induction l with
  | nil => intro acc k d hmem; exact absurd hmem (List.not_mem_nil _)
  | cons fe tl ih =>
    intro acc k d hmem hne hid
    rcases List.mem_cons.mp hmem with heq | htl
    · rw [List.foldl_cons]
      apply buf_excludes_preserve
      simp only [buf_step, ← heq]
      rw [if_neg hne]
      have hcond2 : (!false && d.identifier) = true := by simp [hid]
      simp only [hcond2, if_true]
      exact mem_dict_insert_self _ _ _
    · rw [List.foldl_cons]
      exact ih (buf_step e false acc fe) k d htl hne hid

theorem buf_snd_create (e : Entity) (l : List (String × FieldObj)) :
    ∀ acc : Filters × Excludes, (l.foldl (buf_step e true) acc).2 = acc.2 := by
  induction l with
  | nil => intro acc; rfl
  | cons fe tl ih =>
    intro acc
    rw [List.foldl_cons, ih]
    simp only [buf_step]
    split
    · rfl
    · split
      · next hc => simp at hc
      · rfl

theorem build_excludes_nil_create (e : Entity) :
    (build_unique_filters e true).2 = [] :=
  buf_snd_create e e.meta_.unique_fields ([], [])

theorem nodup_assoc_eq {β : Type} (l : List (String × β))
    (hnd : (l.map Prod.fst).Nodup) (k : String) (a b : β)
    (ha : (k, a) ∈ l) (hb : (k, b) ∈ l) : a = b := by
  induction l with
  | nil => exact absurd ha (List.not_mem_nil _)
  | cons x tl ih =>
    rw [List.map_cons, List.nodup_cons] at hnd
    rcases List.mem_cons.mp ha with ha1 | ha1 <;> rcases List.mem_cons.mp hb with hb1 | hb1
    · rw [← ha1] at hb1
      exact (Prod.mk.injEq _ _ _ _ ▸ hb1).2.symm
    · exact absurd (List.mem_map.mpr ⟨(k, b), hb1, by rw [← ha1]⟩) hnd.1
    · exact absurd (List.mem_map.mpr ⟨(k, a), ha1, by rw [← hb1]⟩) hnd.1
    · exact ih hnd.2 ha1 hb1

/-- The predicate selecting the unique fields that end up in the filter-set:
a non-empty value, and on update not the identifier field. -/
def filter_field_pred (e : Entity) (c : Bool) (fe : String × FieldObj) : Bool :=
  decide (getattr e fe.1 ∉ Field.empty_values) && (c || !fe.2.identifier)

theorem buf_filters_order (e : Entity) (c : Bool) (l : List (String × FieldObj)) :
    ∀ acc : Filters × Excludes, (l.map Prod.fst).Nodup →
      (∀ fe ∈ l, has_key acc.1 fe.1 = false) →
      (l.foldl (buf_step e c) acc).1
        = acc.1 ++ (l.filter (filter_field_pred e c)).map (fun fe => (fe.1, getattr e fe.1)) := by
  induction l with
  | nil => intro acc _ _; simp
  | cons fe tl ih =>
    intro acc hnd hfresh
    rw [List.map_cons, List.nodup_cons] at hnd
    rw [List.foldl_cons]
    by_cases hemp : getattr e fe.1 ∈ Field.empty_values
    · have hstep : buf_step e c acc fe = acc := by
        simp only [buf_step]
        rw [if_pos hemp]
      have hpred : filter_field_pred e c fe = false := by
        simp [filter_field_pred, hemp]
      rw [hstep, List.filter_cons_of_neg (by simp [hpred]),
        ih acc hnd.2 (fun fe' h => hfresh fe' (List.mem_cons_of_mem _ h))]
    · by_cases hid : (!c && fe.2.identifier) = true
      · have hstep : buf_step e c acc fe
            = (acc.1, dict_insert acc.2 fe.1 (getattr e fe.1)) := by
          simp only [buf_step]
          rw [if_neg hemp, if_pos hid]
        have hpred : filter_field_pred e c fe = false := by
          rw [Bool.and_eq_true, Bool.not_eq_true'] at hid
          simp [filter_field_pred, hid.1, hid.2]
        rw [hstep, List.filter_cons_of_neg (by simp [hpred])]
        exact ih _ hnd.2 (fun fe' h => hfresh fe' (List.mem_cons_of_mem _ h))
      · have hstep : buf_step e c acc fe
            = (dict_insert acc.1 fe.1 (getattr e fe.1), acc.2) := by
          simp only [buf_step]
          rw [if_neg hemp, if_neg hid]
        have hpred : filter_field_pred e c fe = true := by
          simp only [Bool.and_eq_true, not_and, Bool.not_eq_true] at hid
          simp only [filter_field_pred, Bool.and_eq_true, decide_eq_true_eq]
          refine ⟨hemp, ?_⟩
          cases hc : c
          · cases hi : fe.2.identifier
            · rfl
            · have hcontra := hid (by rw [hc]; rfl)
              rw [hi] at hcontra
              exact Bool.noConfusion hcontra
          · rfl
        rw [hstep, List.filter_cons_of_pos (by simp [hpred]), List.map_cons]
        have hfr : has_key acc.1 fe.1 = false := hfresh fe (List.mem_cons_self _ _)
        have hins := dict_insert_fresh acc.1 fe.1 (getattr e fe.1) hfr
        have hfresh2 : ∀ fe' ∈ tl,
            has_key (acc.1 ++ [(fe.1, getattr e fe.1)]) fe'.1 = false := by
          intro fe' h
          rw [has_key_append]
          have h1 : has_key acc.1 fe'.1 = false :=
            hfresh fe' (List.mem_cons_of_mem _ h)
          have h2 : has_key [(fe.1, getattr e fe.1)] fe'.1 = false := by
            simp only [has_key, List.any_cons, List.any_nil, Bool.or_false,
              decide_eq_false_iff_not]
            intro hcontra
            exact hnd.1 (List.mem_map.mpr ⟨fe', h, hcontra.symm⟩)
          rw [h1, h2]
          rfl
        rw [hins, ih (acc.1 ++ [(fe.1, getattr e fe.1)], acc.2) hnd.2 hfresh2,
          List.append_assoc]
        rfl

theorem get_ref (sch : Schema) (store : Store) (i : Value) :
    BaseRepository.get sch (ref_filter_objects store) i
      = match (store.filter
            (fun r => decide (assocGet r sch.entity_meta.id_field = some i))).head? with
        | none => .error .objectNotFoundError
        | some r => .ok (sch.to_entity r) := by
  unfold BaseRepository.get ref_filter_objects
  have hq : (fun r => matches_filters r [(sch.entity_meta.id_field, i)] && !(excluded_by r []))
      = (fun r => decide (assocGet r sch.entity_meta.id_field = some i)) := by
    funext r
    simp [matches_filters, excluded_by]
  simp only [hq, Nat.sub_self, Nat.zero_mul, List.drop_zero]
  cases hfp : store.filter (fun r => decide (assocGet r sch.entity_meta.id_field = some i)) with
  | nil => rfl
  | cons a t => rfl

theorem get_ok_meta (sch : Schema) (fo : FilterPrim) (i : Value) (e0 : Entity)
    (h : BaseRepository.get sch fo i = .ok e0) : e0.meta_ = sch.entity_meta := by
  simp only [BaseRepository.get] at h
  cases hit : (fo 1 10 (.plist []) [] [(sch.entity_meta.id_field, i)]).items with
  | nil => rw [hit] at h; exact Except.noConfusion h
  | cons r t =>
    rw [hit] at h
    simp only [Except.ok.injEq] at h
    rw [← h]
    rfl

/-! ### Fixtures for the witnesses -/

/-- A dog entity type: unique identifier field `id` and unique non-identifier field
`name`. -/
def dogMeta : EntityMeta :=
  { id_field := "id", unique_fields := [("id", ⟨true⟩), ("name", ⟨false⟩)] }

/-- A schema over the dog entity type. -/
def dogSchema : Schema :=
  { schema_name := "dog", order_by := .plist [], entity_meta := dogMeta }

/-- A stored dog record. -/
def rex : Record := [("id", .vNat 1), ("name", .vStr "Rex")]

/-- A second stored dog record. -/
def fido : Record := [("id", .vNat 2), ("name", .vStr "Fido")]

/-- A backend query primitive that records, in the `total` field, how many ordering
keys it received when iterating the `order_by` argument it was handed. -/
def probe_fo : FilterPrim :=
  fun _ _ ob _ _ => { page := 1, per_page := 10, total := ob.iterKeys.length, items := [] }

/-! ### Claims -/

/-- C5: for every identifier, `get(identifier)` queries with the single filter
`{identifier_field: identifier}` (first conjunct, over every backend primitive),
raises NotFound exactly when the query returns zero records — over the reference
store, exactly when no stored record binds the identifier field to the identifier —
and otherwise returns the schema's `to_entity` conversion of the first returned
record. -/
theorem C5_get_single_filter_not_found (sch : Schema) (store : Store) (i : Value) :
    (∀ fo : FilterPrim,
      BaseRepository.get sch fo i
        = match (fo 1 10 (.plist []) [] [(sch.entity_meta.id_field, i)]).items with
          | [] => .error .objectNotFoundError
          | r :: _ => .ok (sch.to_entity r))
    ∧ (BaseRepository.get sch (ref_filter_objects store) i = .error .objectNotFoundError
        ↔ ∀ r ∈ store, ¬(assocGet r sch.entity_meta.id_field = some i))
    ∧ (∀ r, (store.filter
          (fun r => decide (assocGet r sch.entity_meta.id_field = some i))).head? = some r →
        BaseRepository.get sch (ref_filter_objects store) i = .ok (sch.to_entity r)) := by
  refine ⟨fun fo => rfl, ?_, ?_⟩
  · rw [get_ref]
    cases hfp : store.filter
        (fun r => decide (assocGet r sch.entity_meta.id_field = some i)) with
    | nil =>
      simp only [List.head?_nil]
      constructor
      · intro _ r hr
        intro hcontra
        have : r ∈ store.filter
            (fun r => decide (assocGet r sch.entity_meta.id_field = some i)) :=
          List.mem_filter.mpr ⟨hr, by simp [hcontra]⟩
        rw [hfp] at this
        exact List.not_mem_nil _ this
      · intro _; trivial
    | cons a t =>
      simp only [List.head?_cons]
      constructor
      · intro h; exact Except.noConfusion h
      · intro h
        have ha : a ∈ store.filter
            (fun r => decide (assocGet r sch.entity_meta.id_field = some i)) := by
          rw [hfp]; exact List.mem_cons_self _ _
        have := List.mem_filter.mp ha
        exact absurd (of_decide_eq_true this.2) (h a this.1)
  · intro r hr
    rw [get_ref, hr]

/-- Closed consequence of `C5_get_single_filter_not_found` at a concrete store:
looking up a missing identifier is NotFound, looking up a present one returns the
converted first matching record. -/
theorem C5_get_single_filter_not_found_witness :
    (BaseRepository.get dogSchema (ref_filter_objects [rex, fido]) (.vNat 7)
      = .error .objectNotFoundError)
    ∧ BaseRepository.get dogSchema (ref_filter_objects [rex, fido]) (.vNat 2)
      = .ok (dogSchema.to_entity fido) :=
  ⟨(C5_get_single_filter_not_found dogSchema [rex, fido] (.vNat 7)).2.1.mpr (by decide),
   (C5_get_single_filter_not_found dogSchema [rex, fido] (.vNat 2)).2.2 fido (by decide)⟩

/-- C6 (code bug): `filter` with no `order_by` argument does use the schema's
configured default, and a non-iterable scalar is wrapped into a one-element list; but
a scalar field name is a Python string, which `isinstance(order_by,
collections.Iterable)` accepts, so it is passed through unchanged instead of being
normalized to a one-element sequence — a backend iterating it sees the one-character
keys `a`, `g`, `e` rather than the single key `age`, and therefore does not behave
identically to the one-element sequence. -/
theorem C6_order_by_string_scalar_not_normalized :
    resolve_order_by (.plist [.vStr "age_default"]) (.plist [])
        = .plist [.vStr "age_default"]
    ∧ resolve_order_by (.plist [.vStr "x"]) (.pstr "age") = .pstr "age"
    ∧ PyOrderBy.iterKeys (.pstr "age") = [.vStr "a", .vStr "g", .vStr "e"]
    ∧ PyOrderBy.iterKeys (.plist [.vStr "age"]) = [.vStr "age"]
    ∧ resolve_order_by (.plist [.vStr "x"]) (.pnum 5) = .plist [.vNat 5]
    ∧ (BaseRepository.filter dogSchema probe_fo 1 10 (.pstr "age") [] []).total = 3
    ∧ (BaseRepository.filter dogSchema probe_fo 1 10 (.plist [.vStr "age"]) [] []).total
        = 1 := by
  refine ⟨rfl, rfl, by decide, rfl, rfl, by decide, by decide⟩

/-- C7: `filter` hands the query primitive the resolved ordering and returns the same
page with every record converted to an entity in place: the page metadata is
preserved and the j-th item of the result is the `to_entity` conversion of the j-th
raw record. -/
theorem C7_filter_converts_in_place (sch : Schema) (fo : FilterPrim)
    (page per_page : Nat) (ob : PyOrderBy) (ex : Excludes) (fs : Filters) :
    (BaseRepository.filter sch fo page per_page ob ex fs).items
        = (fo page per_page (resolve_order_by sch.order_by ob) ex fs).items.map sch.to_entity
    ∧ (BaseRepository.filter sch fo page per_page ob ex fs).page
        = (fo page per_page (resolve_order_by sch.order_by ob) ex fs).page
    ∧ (BaseRepository.filter sch fo page per_page ob ex fs).per_page
        = (fo page per_page (resolve_order_by sch.order_by ob) ex fs).per_page
    ∧ (BaseRepository.filter sch fo page per_page ob ex fs).total
        = (fo page per_page (resolve_order_by sch.order_by ob) ex fs).total
    ∧ (BaseRepository.filter sch fo page per_page ob ex fs).items.length
        = (fo page per_page (resolve_order_by sch.order_by ob) ex fs).items.length
    ∧ ∀ j : Nat,
        (BaseRepository.filter sch fo page per_page ob ex fs).items[j]?
          = ((fo page per_page (resolve_order_by sch.order_by ob) ex fs).items[j]?).map
              sch.to_entity := by
  refine ⟨rfl, rfl, rfl, rfl, by simp [BaseRepository.filter], fun j => ?_⟩
  simp [BaseRepository.filter]

/-- C8: over the reference store, `exists(excludes, **filters)` is `True` exactly when
some stored record matches the filters and is not ruled out by the excludes; it is a
total boolean — `False`, never an error, when nothing matches. -/
theorem C8_exists_boolean (store : Store) (ex : Excludes) (fs : Filters) :
    BaseRepository.exists (ref_filter_objects store) ex fs
      = store.any (fun r => matches_filters r fs && !(excluded_by r ex)) :=
  exists_ref store ex fs

/-- C10: for an identifier with no matching record, `update` propagates the NotFound
of its initial `get` and returns the store unchanged: no entity mutation,
unique-constraint validation or update primitive runs, so update is never an
upsert. -/
theorem C10_update_missing_is_not_found (sch : Schema) (store : Store) (i : Value)
    (data : List (String × Value))
    (h : ∀ r ∈ store, ¬(assocGet r sch.entity_meta.id_field = some i)) :
    BaseRepository.update sch store i data = (.error .objectNotFoundError, store) := by
  have hget : BaseRepository.get sch (ref_filter_objects store) i
      = .error .objectNotFoundError := by
    rw [get_ref]
    have : store.filter (fun r => decide (assocGet r sch.entity_meta.id_field = some i))
        = [] := by
      rw [List.filter_eq_nil_iff]
      intro r hr
      simp only [decide_eq_true_eq]
      exact h r hr
    rw [this]
    rfl
  unfold BaseRepository.update
  rw [hget]

/-- Closed consequence of `C10_update_missing_is_not_found`: updating a missing dog
id leaves the store untouched and reports NotFound. -/
theorem C10_update_missing_is_not_found_witness :
    BaseRepository.update dogSchema [rex] (.vNat 5) [("name", .vStr "X")]
      = (.error .objectNotFoundError, [rex]) :=
  C10_update_missing_is_not_found dogSchema [rex] (.vNat 5) [("name", .vStr "X")]
    (by decide)

/-- C3: the unique-constraint validator checks one field at a time: its outcome is the
first entry of the filter-set (built in declaration order over the declared unique
fields) whose single-field existence check — that one field/value pair together with
the accumulated exclude-set, never a composite AND across fields — finds a matching
record, keyed by that field; later fields are not reported.  The second conjunct pins
the filter-set to the declared unique fields in declaration order. -/
theorem C3_first_conflict_in_declaration_order (sch : Schema) (store : Store)
    (e : Entity) (c : Bool) (hnd : (e.meta_.unique_fields.map Prod.fst).Nodup) :
    (BaseRepository.validate_unique sch (ref_filter_objects store) e c
      = (((build_unique_filters e c).1).find?
            (field_conflict store (build_unique_filters e c).2)).map
          (fun kv => RepoError.validationError sch.schema_name kv.1))
    ∧ (build_unique_filters e c).1
        = (e.meta_.unique_fields.filter (filter_field_pred e c)).map
            (fun fe => (fe.1, getattr e fe.1)) := by
  refine ⟨validate_unique_ref sch store e c, ?_⟩
  have := buf_filters_order e c e.meta_.unique_fields ([], [])
    hnd (fun fe _ => rfl)
  rw [build_unique_filters, this, List.nil_append]

/-- Closed consequence of `C3_first_conflict_in_declaration_order`: with both `id` and
`name` conflicting, only the first declared unique field (`id`) is reported. -/
theorem C3_first_conflict_in_declaration_order_witness :
    BaseRepository.validate_unique dogSchema (ref_filter_objects [rex])
        { meta_ := dogMeta, attrs := rex } true
      = some (RepoError.validationError "dog" "id") := by
  have h := (C3_first_conflict_in_declaration_order dogSchema [rex]
    { meta_ := dogMeta, attrs := rex } true (by decide)).1
  rw [h]
  decide

/-- C4: a unique field whose current value is one of the recognized empty sentinels is
skipped entirely: it is inserted into neither the filter-set nor the exclude-set, and
the validator (over any backend) can never raise a uniqueness violation keyed by
it. -/
theorem C4_empty_unique_fields_skipped (e : Entity) (c : Bool) (f : String)
    (d : FieldObj) (_hf : (f, d) ∈ e.meta_.unique_fields)
    (hempty : getattr e f ∈ Field.empty_values) :
    has_key (build_unique_filters e c).1 f = false
    ∧ has_key (build_unique_filters e c).2 f = false
    ∧ ∀ (sch : Schema) (fo : FilterPrim) (sn fn : String),
        BaseRepository.validate_unique sch fo e c
          = some (.validationError sn fn) → fn ≠ f := by
  have hfk : has_key (build_unique_filters e c).1 f = false := by
    cases hk : has_key (build_unique_filters e c).1 f
    · rfl
    · rcases (has_key_eq_true_iff _ _).mp hk with ⟨kv, hkv, hk1⟩
      rcases buf_filters_sound e c e.meta_.unique_fields ([], []) kv hkv with
        h1 | ⟨d', _, _, hne, _⟩
      · exact absurd h1 (List.not_mem_nil _)
      · rw [hk1] at hne
        exact absurd hempty hne
  have hek : has_key (build_unique_filters e c).2 f = false := by
    cases hk : has_key (build_unique_filters e c).2 f
    · rfl
    · rcases (has_key_eq_true_iff _ _).mp hk with ⟨kv, hkv, hk1⟩
      rcases buf_excludes_sound e c e.meta_.unique_fields ([], []) kv hkv with
        h1 | ⟨d', _, _, hne, _⟩
      · exact absurd h1 (List.not_mem_nil _)
      · rw [hk1] at hne
        exact absurd hempty hne
  refine ⟨hfk, hek, ?_⟩
  intro sch fo sn fn hvu
  unfold BaseRepository.validate_unique at hvu
  rw [first_unique_violation_eq_find] at hvu
  cases hfind : (build_unique_filters e c).1.find?
      (fun kv => BaseRepository.exists fo (build_unique_filters e c).2 [kv]) with
  | none => rw [hfind] at hvu; exact Option.noConfusion hvu
  | some kv =>
    rw [hfind] at hvu
    simp only [Option.map_some', Option.some.injEq, RepoError.validationError.injEq] at hvu
    have hmem := List.mem_of_find?_eq_some hfind
    intro hcontra
    obtain ⟨k1, v1⟩ := kv
    have hk1 : k1 = f := by
      have h2 : k1 = fn := hvu.2
      rw [h2, hcontra]
    rw [hk1] at hmem
    have : has_key (build_unique_filters e c).1 f = true :=
      (has_key_eq_true_iff _ _).mpr ⟨(f, v1), hmem, rfl⟩
    rw [hfk] at this
    exact Bool.noConfusion this

/-- Closed consequence of `C4_empty_unique_fields_skipped`: a dog with an empty-string
`name` produces no filter or exclude entry for `name`, and the conflict the store
would otherwise report for `name` cannot be keyed by it. -/
theorem C4_empty_unique_fields_skipped_witness :
    has_key (build_unique_filters
        { meta_ := dogMeta, attrs := [("id", .vNat 9), ("name", .vStr "")] } true).1
        "name" = false
    ∧ (BaseRepository.validate_unique dogSchema
          (ref_filter_objects [[("name", Value.vStr "")]])
          { meta_ := dogMeta, attrs := [("id", .vNat 9), ("name", .vStr "")] } true
        = some (.validationError "dog" "fld") → "fld" ≠ "name") := by
  have h := C4_empty_unique_fields_skipped
    { meta_ := dogMeta, attrs := [("id", .vNat 9), ("name", .vStr "")] } true
    "name" ⟨false⟩ (by decide) (by decide)
  exact ⟨h.1, h.2.2 dogSchema (ref_filter_objects [[("name", Value.vStr "")]]) "dog" "fld"⟩

/-- C2: in update mode every unique field flagged as the identifier goes into the
exclude-set and not into the filter-set, while on create it goes into the filter-set
like any other unique field and the exclude-set stays empty (first conjunct); as a
consequence, updating an entity under its own identifier with unchanged unique values
never reports a conflict with the entity's own row (second conjunct). -/
theorem C2_identifier_excluded_on_update :
    (∀ (e : Entity) (f : String) (d : FieldObj),
      (e.meta_.unique_fields.map Prod.fst).Nodup →
      (f, d) ∈ e.meta_.unique_fields → d.identifier = true →
      getattr e f ∉ Field.empty_values →
      (f, getattr e f) ∈ (build_unique_filters e false).2
      ∧ has_key (build_unique_filters e false).1 f = false
      ∧ (f, getattr e f) ∈ (build_unique_filters e true).1
      ∧ has_key (build_unique_filters e true).2 f = false)
    ∧ (∀ (sch : Schema) (r : Record) (i : Value) (data : List (String × Value)),
        assocGet r sch.entity_meta.id_field = some i →
        (∀ fe ∈ sch.entity_meta.unique_fields,
          assocGet r fe.1 = some (getattr ((sch.to_entity r).update data) fe.1)
          ∨ getattr ((sch.to_entity r).update data) fe.1 ∈ Field.empty_values) →
        (∃ fe ∈ sch.entity_meta.unique_fields, fe.2.identifier = true ∧
          getattr ((sch.to_entity r).update data) fe.1 ∉ Field.empty_values) →
        (BaseRepository.update sch [r] i data).1
          = .ok ((sch.to_entity r).update data)) := by
  constructor
  · intro e f d hnd hf hid hne
    refine ⟨buf_excludes_complete e e.meta_.unique_fields ([], []) f d hf hne hid,
      ?_, buf_filters_complete e true e.meta_.unique_fields ([], []) f d hf hne
        (Or.inl rfl), ?_⟩
    · cases hk : has_key (build_unique_filters e false).1 f
      · rfl
      · rcases (has_key_eq_true_iff _ _).mp hk with ⟨kv, hkv, hk1⟩
        rcases buf_filters_sound e false e.meta_.unique_fields ([], []) kv hkv with
          h0 | ⟨d', hd', _, _, hcond⟩
        · exact absurd h0 (List.not_mem_nil _)
        · rw [hk1] at hd'
          have hdd : d = d' := nodup_assoc_eq _ hnd f d d' hf hd'
          rcases hcond with h | h
          · exact Bool.noConfusion h
          · rw [← hdd, hid] at h
            exact Bool.noConfusion h
    · rw [build_excludes_nil_create]
      rfl
  · intro sch r i data h1 h2 h3
    have hfil : List.filter
        (fun rr => decide (assocGet rr sch.entity_meta.id_field = some i)) [r] = [r] := by
      simp [h1]
    have hget : BaseRepository.get sch (ref_filter_objects [r]) i
        = .ok (sch.to_entity r) := by
      rw [get_ref, hfil]
      rfl
    have hvu : BaseRepository.validate_unique sch (ref_filter_objects [r])
        ((sch.to_entity r).update data) false = none := by
      rw [validate_unique_ref]
      have hfind : (build_unique_filters ((sch.to_entity r).update data) false).1.find?
          (field_conflict [r]
            (build_unique_filters ((sch.to_entity r).update data) false).2) = none := by
        rw [List.find?_eq_none]
        intro kv hkv
        rcases buf_filters_sound ((sch.to_entity r).update data) false
            _ ([], []) kv hkv with h0 | ⟨d', hd', hv, hne', _⟩
        · exact absurd h0 (List.not_mem_nil _)
        have hexc : excluded_by r
            (build_unique_filters ((sch.to_entity r).update data) false).2 = true := by
          obtain ⟨fe, hfe, hfid, hfne⟩ := h3
          have hmem : (fe.1, getattr ((sch.to_entity r).update data) fe.1)
              ∈ (build_unique_filters ((sch.to_entity r).update data) false).2 :=
            buf_excludes_complete ((sch.to_entity r).update data) _ ([], [])
              fe.1 fe.2 hfe hfne hfid
          have hnotnil : (build_unique_filters ((sch.to_entity r).update data) false).2
              ≠ [] := List.ne_nil_of_mem hmem
          unfold excluded_by
          rw [Bool.and_eq_true]
          constructor
          · cases hemp2 : (build_unique_filters ((sch.to_entity r).update data) false).2 with
            | nil => exact absurd hemp2 hnotnil
            | cons x xs => rfl
          · rw [List.all_eq_true]
            intro kv' hkv'
            rcases buf_excludes_sound ((sch.to_entity r).update data) false
                _ ([], []) kv' hkv' with h0 | ⟨d2, hd2, hv2, hne2, _, _⟩
            · exact absurd h0 (List.not_mem_nil _)
            rcases h2 (kv'.1, d2) hd2 with hok | hemp
            · rw [hv2]
              exact decide_eq_true hok
            · exact absurd hemp hne2
        simp only [field_conflict, List.any_cons, List.any_nil, Bool.or_false]
        rw [hexc]
        simp
      rw [hfind]
      rfl
    unfold BaseRepository.update
    rw [hget]
    dsimp only
    rw [hvu]
    rfl

/-- C1: whenever some unique field of the entity (any unique field on create, a
non-identifier unique field on update) holds a non-empty value that a stored record —
one not ruled out by the exclude-set, so not the entity's own row — already carries,
`create`/`update` returns a ValidationError keyed by such a conflicting field name,
and the store is returned unchanged: the backend create/update primitive is never
invoked. -/
theorem C1_unique_conflict_rejects_write :
    (∀ (sch : Schema) (store : Store) (kwargs : List (String × Value)),
      (∃ fd ∈ sch.entity_meta.unique_fields,
        getattr { meta_ := sch.entity_meta, attrs := kwargs } fd.1
          ∉ Field.empty_values ∧
        ∃ r ∈ store, assocGet r fd.1
          = some (getattr { meta_ := sch.entity_meta, attrs := kwargs } fd.1)) →
      ∃ fd ∈ sch.entity_meta.unique_fields,
        getattr { meta_ := sch.entity_meta, attrs := kwargs } fd.1
          ∉ Field.empty_values ∧
        (∃ r ∈ store, assocGet r fd.1
          = some (getattr { meta_ := sch.entity_meta, attrs := kwargs } fd.1)) ∧
        BaseRepository.create sch store kwargs
          = (.error (.validationError sch.schema_name fd.1), store))
    ∧ (∀ (sch : Schema) (store : Store) (i : Value) (data : List (String × Value))
        (e0 : Entity),
        BaseRepository.get sch (ref_filter_objects store) i = .ok e0 →
        (∃ fd ∈ sch.entity_meta.unique_fields, fd.2.identifier = false ∧
          getattr (e0.update data) fd.1 ∉ Field.empty_values ∧
          ∃ r ∈ store, assocGet r fd.1 = some (getattr (e0.update data) fd.1) ∧
            excluded_by r (build_unique_filters (e0.update data) false).2 = false) →
        ∃ fd ∈ sch.entity_meta.unique_fields, fd.2.identifier = false ∧
          getattr (e0.update data) fd.1 ∉ Field.empty_values ∧
          (∃ r ∈ store, assocGet r fd.1 = some (getattr (e0.update data) fd.1) ∧
            excluded_by r (build_unique_filters (e0.update data) false).2 = false) ∧
          BaseRepository.update sch store i data
            = (.error (.validationError sch.schema_name fd.1), store)) := by
  constructor
  · intro sch store kwargs hconf
    obtain ⟨fd, hfd, hne, r, hr, hmatch⟩ := hconf
    have hex : (build_unique_filters
        { meta_ := sch.entity_meta, attrs := kwargs : Entity } true).2 = [] :=
      build_excludes_nil_create _
    have hmemf : (fd.1, getattr { meta_ := sch.entity_meta, attrs := kwargs } fd.1)
        ∈ (build_unique_filters { meta_ := sch.entity_meta, attrs := kwargs } true).1 :=
      buf_filters_complete _ true _ ([], []) fd.1 fd.2 hfd hne (Or.inl rfl)
    have hpred : field_conflict store
        (build_unique_filters { meta_ := sch.entity_meta, attrs := kwargs } true).2
        (fd.1, getattr { meta_ := sch.entity_meta, attrs := kwargs } fd.1) = true := by
      rw [hex]
      unfold field_conflict
      rw [List.any_eq_true]
      refine ⟨r, hr, ?_⟩
      simp [excluded_by, hmatch]
    have hsome : ((build_unique_filters
          { meta_ := sch.entity_meta, attrs := kwargs } true).1.find?
        (field_conflict store (build_unique_filters
          { meta_ := sch.entity_meta, attrs := kwargs } true).2)).isSome := by
      rw [List.find?_isSome]
      exact ⟨_, hmemf, hpred⟩
    obtain ⟨kv, hfind⟩ := Option.isSome_iff_exists.mp hsome
    have hkvpred := List.find?_some hfind
    have hkvmem := List.mem_of_find?_eq_some hfind
    rcases buf_filters_sound _ true _ ([], []) kv hkvmem with
      h0 | ⟨d', hd', hv, hne', _⟩
    · exact absurd h0 (List.not_mem_nil _)
    have hr' : ∃ r' ∈ store, assocGet r' kv.1
        = some (getattr { meta_ := sch.entity_meta, attrs := kwargs } kv.1) := by
      unfold field_conflict at hkvpred
      obtain ⟨r', hr'mem, hq⟩ := List.any_eq_true.mp hkvpred
      rw [Bool.and_eq_true] at hq
      refine ⟨r', hr'mem, ?_⟩
      rw [← hv]
      exact of_decide_eq_true hq.1
    have hvu : BaseRepository.validate_unique sch (ref_filter_objects store)
        { meta_ := sch.entity_meta, attrs := kwargs } true
        = some (.validationError sch.schema_name kv.1) := by
      rw [validate_unique_ref, hfind]
      rfl
    refine ⟨(kv.1, d'), hd', hne', hr', ?_⟩
    unfold BaseRepository.create
    dsimp only
    rw [hvu]
  · intro sch store i data e0 hget hconf
    have hmeta : e0.meta_ = sch.entity_meta := get_ok_meta sch _ i e0 hget
    have hmeta2 : (e0.update data).meta_ = sch.entity_meta := hmeta
    obtain ⟨fd, hfd, hfid, hne, r, hr, hmatch, hnotexc⟩ := hconf
    have hfd2 : (fd.1, fd.2) ∈ (e0.update data).meta_.unique_fields := by
      rw [hmeta2]; exact hfd
    have hmemf : (fd.1, getattr (e0.update data) fd.1)
        ∈ (build_unique_filters (e0.update data) false).1 :=
      buf_filters_complete _ false _ ([], []) fd.1 fd.2 hfd2 hne (Or.inr hfid)
    have hpred : field_conflict store
        (build_unique_filters (e0.update data) false).2
        (fd.1, getattr (e0.update data) fd.1) = true := by
      unfold field_conflict
      rw [List.any_eq_true]
      refine ⟨r, hr, ?_⟩
      rw [Bool.and_eq_true]
      exact ⟨decide_eq_true hmatch, by rw [hnotexc]; rfl⟩
    have hsome : ((build_unique_filters (e0.update data) false).1.find?
        (field_conflict store
          (build_unique_filters (e0.update data) false).2)).isSome := by
      rw [List.find?_isSome]
      exact ⟨_, hmemf, hpred⟩
    obtain ⟨kv, hfind⟩ := Option.isSome_iff_exists.mp hsome
    have hkvpred := List.find?_some hfind
    have hkvmem := List.mem_of_find?_eq_some hfind
    rcases buf_filters_sound _ false _ ([], []) kv hkvmem with
      h0 | ⟨d', hd', hv, hne', hcond⟩
    · exact absurd h0 (List.not_mem_nil _)
    have hd'2 : (kv.1, d') ∈ sch.entity_meta.unique_fields := by
      rw [← hmeta2]; exact hd'
    have hd'id : d'.identifier = false := by
      rcases hcond with h | h
      · exact Bool.noConfusion h
      · exact h
    have hr' : ∃ r' ∈ store, assocGet r' kv.1
        = some (getattr (e0.update data) kv.1) ∧
        excluded_by r' (build_unique_filters (e0.update data) false).2 = false := by
      unfold field_conflict at hkvpred
      obtain ⟨r', hr'mem, hq⟩ := List.any_eq_true.mp hkvpred
      rw [Bool.and_eq_true] at hq
      refine ⟨r', hr'mem, ?_, ?_⟩
      · rw [← hv]
        exact of_decide_eq_true hq.1
      · rw [← Bool.not_eq_true']
        exact hq.2
    have hvu : BaseRepository.validate_unique sch (ref_filter_objects store)
        (e0.update data) false
        = some (.validationError sch.schema_name kv.1) := by
      rw [validate_unique_ref, hfind]
      rfl
    refine ⟨(kv.1, d'), hd'2, hd'id, hne', hr', ?_⟩
    unfold BaseRepository.update
    rw [hget]
    dsimp only
    rw [hvu]

/-- C9: schema option resolution fails with ConfigurationError exactly when no entity
is declared or the declared one is not a valid Entity subclass; on success,
`schema_name` defaults to the underscored schema class name when not supplied, `bind`
defaults to `"default"`, and `order_by` defaults to the empty sequence. -/
theorem C9_schema_opts_resolution (meta : MetaOpts) (name : String) :
    (RepositorySchemaOpts.make meta name = .error .configurationError
      ↔ meta.entity = none
        ∨ ∃ cls, meta.entity = some cls ∧ cls.subclass_of_entity = false)
    ∧ ∀ opts, RepositorySchemaOpts.make meta name = .ok opts →
        ((meta.schema_name = none → opts.schema_name = underscore name)
        ∧ (meta.bind = none → opts.bind = "default")
        ∧ (meta.order_by = none → opts.order_by = .plist [])) := by
  obtain ⟨ent, sn, bd, ob⟩ := meta
  cases ent with
  | none =>
    constructor
    · simp [RepositorySchemaOpts.make]
    · intro opts h
      exact Except.noConfusion h
  | some cls =>
    cases hsc : cls.subclass_of_entity with
    | false =>
      constructor
      · simp only [RepositorySchemaOpts.make, hsc]
        constructor
        · intro _
          exact Or.inr ⟨cls, rfl, hsc⟩
        · intro _
          rfl
      · intro opts h
        simp only [RepositorySchemaOpts.make, hsc] at h
        exact Except.noConfusion h
    | true =>
      constructor
      · simp only [RepositorySchemaOpts.make, hsc]
        constructor
        · intro h
          exact Except.noConfusion h
        · rintro (h | ⟨cls', hcls', hsc'⟩)
          · exact Option.noConfusion h
          · rw [Option.some.injEq] at hcls'
            rw [← hcls', hsc] at hsc'
            exact Bool.noConfusion hsc'
      · intro opts h
        simp only [RepositorySchemaOpts.make, hsc, Bool.not_true, Bool.false_eq_true,
          if_false, Except.ok.injEq] at h
        refine ⟨?_, ?_, ?_⟩
        · intro hsn
          rw [← h]
          cases sn with
          | none => rfl
          | some s => exact Option.noConfusion hsn
        · intro hbd
          rw [← h]
          cases bd with
          | none => rfl
          | some s => exact Option.noConfusion hbd
        · intro hob
          rw [← h]
          cases ob with
          | none => rfl
          | some s => exact Option.noConfusion hob

/-- Closed consequence of `C9_schema_opts_resolution`: a missing entity declaration
is a ConfigurationError, and a valid declaration with no overrides resolves to the
underscored class name and the documented defaults. -/
theorem C9_schema_opts_resolution_witness :
    RepositorySchemaOpts.make ⟨none, none, none, none⟩ "DogSchema"
      = .error .configurationError
    ∧ RepositorySchemaOpts.make ⟨some ⟨true⟩, none, none, none⟩ "DogSchema"
      = .ok ⟨⟨true⟩, "dog_schema", "default", .plist []⟩
    ∧ ("dog_schema" : String) = underscore "DogSchema" := by
  refine ⟨(C9_schema_opts_resolution ⟨none, none, none, none⟩ "DogSchema").1.mpr
    (Or.inl rfl), rfl, ?_⟩
  have h := (C9_schema_opts_resolution ⟨some ⟨true⟩, none, none, none⟩ "DogSchema").2
    ⟨⟨true⟩, "dog_schema", "default", .plist []⟩ rfl
  exact h.1 rfl

/-- Closed consequence of `C2_identifier_excluded_on_update`: the dog's unique `id`
goes into the exclude-set and not the filter-set on update, and re-updating Rex under
its own identifier with the same name succeeds instead of conflicting with its own
row. -/
theorem C2_identifier_excluded_on_update_witness :
    (("id", Value.vNat 1)
        ∈ (build_unique_filters { meta_ := dogMeta, attrs := rex } false).2
      ∧ has_key (build_unique_filters { meta_ := dogMeta, attrs := rex } false).1 "id"
          = false)
    ∧ (BaseRepository.update dogSchema [rex] (.vNat 1) [("name", .vStr "Rex")]).1
        = .ok ((dogSchema.to_entity rex).update [("name", .vStr "Rex")]) := by
  have h1 := C2_identifier_excluded_on_update.1 { meta_ := dogMeta, attrs := rex }
    "id" ⟨true⟩ (by decide) (by decide) rfl (by decide)
  have h2 := C2_identifier_excluded_on_update.2 dogSchema rex (.vNat 1)
    [("name", .vStr "Rex")] (by decide) (by decide) (by decide)
  exact ⟨⟨h1.1, h1.2.1⟩, h2⟩

/-- Closed consequence of `C1_unique_conflict_rejects_write`: creating a second dog
named Rex is rejected by a ValidationError keyed by a conflicting unique field with
the store unchanged, and updating Fido's name onto Rex's row is likewise rejected
with the store unchanged. -/
theorem C1_unique_conflict_rejects_write_witness :
    (∃ fd ∈ dogSchema.entity_meta.unique_fields,
      getattr { meta_ := dogSchema.entity_meta,
                attrs := [("id", .vNat 3), ("name", .vStr "Rex")] } fd.1
        ∉ Field.empty_values ∧
      (∃ r ∈ [rex], assocGet r fd.1
        = some (getattr { meta_ := dogSchema.entity_meta,
                          attrs := [("id", .vNat 3), ("name", .vStr "Rex")] } fd.1)) ∧
      BaseRepository.create dogSchema [rex] [("id", .vNat 3), ("name", .vStr "Rex")]
        = (.error (.validationError dogSchema.schema_name fd.1), [rex]))
    ∧ (∃ fd ∈ dogSchema.entity_meta.unique_fields, fd.2.identifier = false ∧
      getattr ((dogSchema.to_entity rex).update [("name", .vStr "Fido")]) fd.1
        ∉ Field.empty_values ∧
      (∃ r ∈ [rex, fido], assocGet r fd.1
        = some (getattr ((dogSchema.to_entity rex).update
            [("name", .vStr "Fido")]) fd.1) ∧
        excluded_by r (build_unique_filters
          ((dogSchema.to_entity rex).update [("name", .vStr "Fido")]) false).2
          = false) ∧
      BaseRepository.update dogSchema [rex, fido] (.vNat 1) [("name", .vStr "Fido")]
        = (.error (.validationError dogSchema.schema_name fd.1), [rex, fido])) :=
  ⟨C1_unique_conflict_rejects_write.1 dogSchema [rex]
      [("id", .vNat 3), ("name", .vStr "Rex")] (by decide),
   C1_unique_conflict_rejects_write.2 dogSchema [rex, fido] (.vNat 1)
      [("name", .vStr "Fido")] (dogSchema.to_entity rex) rfl (by decide)⟩

end Protean
